import Mathlib

/-!
Shallow embedding of the Photonic-bandgap-app repository
(`backend/fastapi_mpb.py`, with `fastapi_mpb.py` as an earlier variant of the
same handler, and `streamlit_app.py` as the dashboard client).

The backend's `/bands` handler builds a lattice description, a k-point path
(via meep's `mp.interpolate`), and a cylinder geometry, and hands them to the
external MPB mode solver (`mpb.ModeSolver(...).run_tm()`); the `/transmission`
handler converts GHz inputs to meep's normalized frequencies and hands a
finite-crystal simulation to the external Meep engine.  The external engines
are modelled as explicit function parameters (`run_tm`, `engine`): the
embedding captures exactly what the Python code computes itself and what it
passes to, and reads back from, the engines.

Numbers: the Python floats are modelled as exact rationals.  The triangular
lattice branch computes with `np.sqrt(3)`, so coordinates live in the field
ℚ(√3), represented by pairs `(a, b) ↦ a + b·√3` with exact arithmetic.
-/

/-- An element `a + b·√3` of the field ℚ(√3).  Used for geometric
coordinates because the source computes with `np.sqrt(3)`. -/
structure Q3 where
  a : ℚ
  b : ℚ
deriving DecidableEq

namespace Q3

def add (x y : Q3) : Q3 := ⟨x.a + y.a, x.b + y.b⟩

def sub (x y : Q3) : Q3 := ⟨x.a - y.a, x.b - y.b⟩

def mul (x y : Q3) : Q3 := ⟨x.a * y.a + 3 * x.b * y.b, x.a * y.b + x.b * y.a⟩

/-- Field inverse in ℚ(√3): `(a + b√3)⁻¹ = (a - b√3)/(a² - 3b²)` (0 maps to 0). -/
def inv (x : Q3) : Q3 := ⟨x.a / (x.a ^ 2 - 3 * x.b ^ 2), -x.b / (x.a ^ 2 - 3 * x.b ^ 2)⟩

def div (x y : Q3) : Q3 := mul x (inv y)

def ofRat (q : ℚ) : Q3 := ⟨q, 0⟩

/-- The value `np.sqrt(3)` of the source. -/
def sqrt3 : Q3 := ⟨0, 1⟩

/-- Scaling by a rational scalar (vector arithmetic of meep's `Vector3`). -/
def qsmul (t : ℚ) (x : Q3) : Q3 := ⟨t * x.a, t * x.b⟩

instance : Add Q3 := ⟨add⟩
instance : Sub Q3 := ⟨sub⟩
instance : Mul Q3 := ⟨mul⟩
instance : Div Q3 := ⟨div⟩
instance (n : ℕ) : OfNat Q3 n := ⟨⟨(n : ℚ), 0⟩⟩

@[simp] lemma add_def (x y : Q3) : x + y = ⟨x.a + y.a, x.b + y.b⟩ := rfl

@[simp] lemma sub_def (x y : Q3) : x - y = ⟨x.a - y.a, x.b - y.b⟩ := rfl

@[simp] lemma qsmul_def (t : ℚ) (x : Q3) : qsmul t x = ⟨t * x.a, t * x.b⟩ := rfl

@[simp] lemma div_def (x y : Q3) : x / y = Q3.div x y := rfl

@[simp] lemma ofNat_def (n : ℕ) : (no_index (OfNat.ofNat n) : Q3) = ⟨OfNat.ofNat n, 0⟩ := rfl

lemma ext_ab (u v : Q3) (ha : u.a = v.a) (hb : u.b = v.b) : u = v := by
  cases u; cases v; cases ha; cases hb; rfl

end Q3

/-- A 2D point/vector with ℚ(√3) coordinates (the z component of the
source's `mp.Vector3` is always 0 and is omitted). -/
structure Vec2 where
  x : Q3
  y : Q3
deriving DecidableEq

namespace Vec2

def add (u v : Vec2) : Vec2 := ⟨u.x + v.x, u.y + v.y⟩

def sub (u v : Vec2) : Vec2 := ⟨u.x - v.x, u.y - v.y⟩

def smul (t : ℚ) (v : Vec2) : Vec2 := ⟨Q3.qsmul t v.x, Q3.qsmul t v.y⟩

lemma ext_xy (u v : Vec2) (hx : u.x = v.x) (hy : u.y = v.y) : u = v := by
  cases u; cases v; cases hx; cases hy; rfl

end Vec2

/-- The point `p + t·(q - p)` on the segment from `p` to `q`. -/
def pointAt (p q : Vec2) (t : ℚ) : Vec2 := Vec2.add p (Vec2.smul t (Vec2.sub q p))

/-- The `n` points meep's `mp.interpolate` inserts strictly between `p` and
`q`: `p + (i+1)/(n+1)·(q-p)` for `i = 0, …, n-1`. -/
def interpSegment (n : ℕ) (p q : Vec2) : List Vec2 :=
  (List.range n).map (fun i : ℕ => pointAt p q (((i : ℚ) + 1) / ((n : ℚ) + 1)))

/-- Model of meep's `mp.interpolate n pts`: every original point is kept and
`n` evenly spaced points are inserted strictly between each consecutive
pair. -/
def interpolate (n : ℕ) : List Vec2 → List Vec2
  | [] => []
  | [p] => [p]
  | p :: q :: rest => p :: (interpSegment n p q ++ interpolate n (q :: rest))

lemma pointAt_zero (p q : Vec2) : pointAt p q 0 = p := by
  refine Vec2.ext_xy _ _ (Q3.ext_ab _ _ ?_ ?_) (Q3.ext_ab _ _ ?_ ?_)
  · show p.x.a + 0 * (q.x.a - p.x.a) = p.x.a; ring
  · show p.x.b + 0 * (q.x.b - p.x.b) = p.x.b; ring
  · show p.y.a + 0 * (q.y.a - p.y.a) = p.y.a; ring
  · show p.y.b + 0 * (q.y.b - p.y.b) = p.y.b; ring

lemma pointAt_one (p q : Vec2) : pointAt p q 1 = q := by
  refine Vec2.ext_xy _ _ (Q3.ext_ab _ _ ?_ ?_) (Q3.ext_ab _ _ ?_ ?_)
  · show p.x.a + 1 * (q.x.a - p.x.a) = q.x.a; ring
  · show p.x.b + 1 * (q.x.b - p.x.b) = q.x.b; ring
  · show p.y.a + 1 * (q.y.a - p.y.a) = q.y.a; ring
  · show p.y.b + 1 * (q.y.b - p.y.b) = q.y.b; ring

/-- If an affine combination takes the same value at two parameters and the
direction component is involved, the parameters agree (ℚ version). -/
lemma affine_comp_eq (pa qa t t' : ℚ) (hne : t ≠ t')
    (h : pa + t * (qa - pa) = pa + t' * (qa - pa)) : qa = pa := by
  have h1 : t * (qa - pa) = t' * (qa - pa) := by linarith
  have h2 : (t - t') * (qa - pa) = 0 := by rw [sub_mul, sub_eq_zero]; exact h1
  rcases mul_eq_zero.mp h2 with h' | h'
  · exact absurd (sub_eq_zero.mp h') hne
  · exact sub_eq_zero.mp h'

/-- `pointAt p q` is injective in the parameter when `p ≠ q`. -/
lemma pointAt_inj (p q : Vec2) (hpq : p ≠ q) {t t' : ℚ} (hne : t ≠ t') :
    pointAt p q t ≠ pointAt p q t' := by
  intro h
  apply hpq
  have hxa : p.x.a + t * (q.x.a - p.x.a) = p.x.a + t' * (q.x.a - p.x.a) :=
    congrArg (fun v => v.x.a) h
  have hxb : p.x.b + t * (q.x.b - p.x.b) = p.x.b + t' * (q.x.b - p.x.b) :=
    congrArg (fun v => v.x.b) h
  have hya : p.y.a + t * (q.y.a - p.y.a) = p.y.a + t' * (q.y.a - p.y.a) :=
    congrArg (fun v => v.y.a) h
  have hyb : p.y.b + t * (q.y.b - p.y.b) = p.y.b + t' * (q.y.b - p.y.b) :=
    congrArg (fun v => v.y.b) h
  refine Vec2.ext_xy _ _ (Q3.ext_ab _ _ ?_ ?_) (Q3.ext_ab _ _ ?_ ?_)
  · exact (affine_comp_eq _ _ t t' hne hxa).symm
  · exact (affine_comp_eq _ _ t t' hne hxb).symm
  · exact (affine_comp_eq _ _ t t' hne hya).symm
  · exact (affine_comp_eq _ _ t t' hne hyb).symm

lemma segWithStart_eq_map (n : ℕ) (p q : Vec2) :
    p :: interpSegment n p q =
      (List.range (n + 1)).map (fun i : ℕ => pointAt p q ((i : ℚ) / ((n : ℚ) + 1))) := by
  rw [List.range_succ_eq_map, List.map_cons, List.map_map]
  have h0 : pointAt p q ((0 : ℕ) / ((n : ℚ) + 1)) = p := by
    simpa using pointAt_zero p q
  rw [h0]
  congr 1
  apply List.map_congr_left
  intro i _
  simp only [Function.comp_apply, interpSegment]
  norm_num

lemma interpSegment_length (n : ℕ) (p q : Vec2) : (interpSegment n p q).length = n := by
  simp [interpSegment]

lemma interpolate_length_four (n : ℕ) (a b c d : Vec2) :
    (interpolate n [a, b, c, d]).length = 3 * n + 4 := by
  simp [interpolate, interpSegment_length]
  omega

lemma interpolate_head (n : ℕ) (q : Vec2) (rest : List Vec2) :
    (interpolate n (q :: rest)).head? = some q := by
  cases rest <;> simp [interpolate]

/-- Coefficients `i/(n+1)` for `i < n+1` are pairwise-adjacent distinct and
the corresponding interpolation points of a nondegenerate segment are too. -/
lemma chain'_ne_seg (n : ℕ) (p q : Vec2) (hpq : p ≠ q) :
    List.Chain' Ne (p :: interpSegment n p q) := by
  rw [segWithStart_eq_map]
  apply List.chain'_map_of_chain' (R := fun i j : ℕ => i < j)
  · intro i j hij
    apply pointAt_inj p q hpq
    intro hdiv
    have hn1 : ((n : ℚ) + 1) ≠ 0 := by positivity
    field_simp at hdiv
    omega
  · exact (List.pairwise_lt_range (n + 1)).chain'

lemma getLast?_seg (n : ℕ) (p q : Vec2) :
    (p :: interpSegment n p q).getLast? = some (pointAt p q ((n : ℚ) / ((n : ℚ) + 1))) := by
  rw [segWithStart_eq_map, List.range_succ, List.map_append]
  simp

lemma seg_coeff_ne_one (n : ℕ) : ((n : ℚ) / ((n : ℚ) + 1)) ≠ 1 := by
  intro h
  have hn1 : ((n : ℚ) + 1) ≠ 0 := by positivity
  rw [div_eq_one_iff_eq hn1] at h
  linarith

/-- `mp.interpolate` never produces two equal adjacent points when the
original high-symmetry points are pairwise-adjacent distinct. -/
lemma chain'_ne_interpolate (n : ℕ) :
    ∀ pts : List Vec2, List.Chain' Ne pts → List.Chain' Ne (interpolate n pts)
  | [], _ => by simp [interpolate]
  | [p], _ => by simp [interpolate]
  | p :: q :: rest, h => by
    have hpq : p ≠ q := (List.chain'_cons.mp h).1
    have htail : List.Chain' Ne (q :: rest) := (List.chain'_cons.mp h).2
    have ih := chain'_ne_interpolate n (q :: rest) htail
    have heq : interpolate n (p :: q :: rest) =
        (p :: interpSegment n p q) ++ interpolate n (q :: rest) := by
      simp [interpolate]
    rw [heq]
    apply List.chain'_append.mpr
    refine ⟨chain'_ne_seg n p q hpq, ih, ?_⟩
    intro x hx y hy
    rw [getLast?_seg] at hx
    rw [interpolate_head] at hy
    have hx' : x = pointAt p q ((n : ℚ) / ((n : ℚ) + 1)) := by
      have := hx; simp at this; exact this.symm
    have hy' : y = q := by
      have := hy; simp at this; exact this.symm
    rw [hx', hy']
    intro hcon
    exact pointAt_inj p q hpq (seg_coeff_ne_one n) (hcon.trans (pointAt_one p q).symm)

/-! ## The `/bands` handler (`backend/fastapi_mpb.py`, lines 20-62) -/

/-- `class BandInput(BaseModel)` (lines 20-26).  The numeric floats are
modelled as exact rationals; the integer counts as naturals. -/
structure BandInput where
  epsilon : ℚ
  r_over_a : ℚ
  num_bands : ℕ
  resolution : ℕ
  k_points_per_segment : ℕ
  lattice : String
deriving DecidableEq

/-- `mp.Lattice(size=..., basis1=..., basis2=...)` as passed to the solver. -/
structure LatticeSpec where
  sizeX : ℚ
  sizeY : ℚ
  basis1 : Vec2
  basis2 : Vec2
deriving DecidableEq

/-- `mp.Cylinder(radius=..., material=mp.Medium(epsilon=...), center=...)`;
the height is `mp.inf` for every cylinder in the source and is omitted. -/
structure Cylinder where
  radius : ℚ
  epsilon : ℚ
  center : Vec2
deriving DecidableEq

/-- The argument record of `mpb.ModeSolver(...)` (lines 52-57). -/
structure ModeSolverSpec where
  num_bands : ℕ
  k_points : List Vec2
  geometry_lattice : LatticeSpec
  geometry : List Cylinder
  resolution : ℕ
  default_epsilon : ℚ
deriving DecidableEq

/-- The JSON-like value returned by `compute_bands`: either the
`{"error": "unknown lattice"}` dictionary (line 46) or the
`{"k_path_labels": ..., "frequencies": ...}` dictionary (line 62). -/
inductive BandsResponse where
  | error (msg : String)
  | ok (k_path_labels : List String) (frequencies : List (List ℚ))
deriving DecidableEq

/-- `mp.Lattice(size=mp.Vector3(1, 1))` (line 32); meep's default basis. -/
def squareLattice : LatticeSpec := ⟨1, 1, ⟨1, 0⟩, ⟨0, 1⟩⟩

/-- `mp.Lattice(size=..., basis1=mp.Vector3(1, 0), basis2=mp.Vector3(0.5, np.sqrt(3)/2))`
(lines 37-39). -/
def triangularLattice : LatticeSpec := ⟨1, 1, ⟨1, 0⟩, ⟨1 / 2, Q3.sqrt3 / 2⟩⟩

/-- `mp.interpolate(n, [G, X, M, G])` with `G=(0,0)`, `X=(0.5,0)`,
`M=(0.5,0.5)` (lines 33-34). -/
def kPathSquare (n : ℕ) : List Vec2 :=
  interpolate n [⟨0, 0⟩, ⟨1 / 2, 0⟩, ⟨1 / 2, 1 / 2⟩, ⟨0, 0⟩]

/-- `mp.interpolate(n, [G, M, K, G])` with `G=(0,0)`, `M=(0.5, 0.5/np.sqrt(3))`,
`K=(1/3, 1/3/np.sqrt(3))` (lines 40-43). -/
def kPathTriangular (n : ℕ) : List Vec2 :=
  interpolate n
    [⟨0, 0⟩, ⟨1 / 2, (1 / 2 : Q3) / Q3.sqrt3⟩, ⟨1 / 3, (1 / 3 : Q3) / Q3.sqrt3⟩, ⟨0, 0⟩]

/-- Lines 31-46: selection of the lattice, k-path and labels from the
`lattice` keyword; `None` is the `else: return {"error": "unknown lattice"}`
branch. -/
def bandsLatticeAndPath (inp : BandInput) :
    Option (LatticeSpec × List Vec2 × List String) :=
  if inp.lattice = "square" then
    some (squareLattice, kPathSquare inp.k_points_per_segment, ["Γ", "X", "M", "Γ"])
  else if inp.lattice = "triangular" then
    some (triangularLattice, kPathTriangular inp.k_points_per_segment, ["Γ", "M", "K", "Γ"])
  else none

/-- Lines 48-57: the geometry (`radius = inp.r_over_a * 0.5`, one cylinder of
permittivity `inp.epsilon` at the origin) and the full `mpb.ModeSolver`
argument record, with `default_material=mp.Medium(epsilon=1.0)`. -/
def bandsSolverSpec (inp : BandInput) : Option (ModeSolverSpec × List String) :=
  match bandsLatticeAndPath inp with
  | none => none
  | some (lat, kpts, labels) =>
      some (⟨inp.num_bands, kpts, lat,
             [⟨inp.r_over_a * (1 / 2), inp.epsilon, ⟨0, 0⟩⟩],
             inp.resolution, 1⟩, labels)

/-- `compute_bands` (lines 28-62).  The external MPB engine
(`ModeSolver.run_tm(); ms.all_freqs`) is the parameter `run_tm`: the handler
returns the engine's frequency table verbatim, paired with the labels. -/
def compute_bands (run_tm : ModeSolverSpec → List (List ℚ)) (inp : BandInput) :
    BandsResponse :=
  match bandsSolverSpec inp with
  | none => BandsResponse.error "unknown lattice"
  | some (spec, labels) => BandsResponse.ok labels (run_tm spec)

/-- Module-level state of `backend/fastapi_mpb.py`: the only module-level
object is the FastAPI app with its CORS configuration (lines 9-16); no
handler assigns to any module-level name. -/
structure AppState where
  allow_origins : List String
  allow_credentials : Bool
  allow_methods : List String
  allow_headers : List String
deriving DecidableEq

/-- The module state created at import (lines 9-16). -/
def appStartState : AppState := ⟨["*"], true, ["*"], ["*"]⟩

/-- One invocation of the `/bands` route as a state transformer: the handler
body (lines 28-62) reads only its input and locals and writes no module-level
name, so the state passes through unchanged. -/
def handleBands (σ : AppState) (run_tm : ModeSolverSpec → List (List ℚ))
    (inp : BandInput) : BandsResponse × AppState :=
  (compute_bands run_tm inp, σ)

/-- Length of the generated square-lattice k-path. -/
lemma kPathSquare_length (n : ℕ) : (kPathSquare n).length = 3 * n + 4 :=
  interpolate_length_four n _ _ _ _

/-- Length of the generated triangular-lattice k-path. -/
lemma kPathTriangular_length (n : ℕ) : (kPathTriangular n).length = 3 * n + 4 :=
  interpolate_length_four n _ _ _ _

/-- No two adjacent points of the generated square-lattice k-path coincide. -/
lemma kPathSquare_chain' (n : ℕ) : List.Chain' Ne (kPathSquare n) :=
  chain'_ne_interpolate n _
    (List.chain'_cons.mpr ⟨by simp [Q3.div, Q3.mul, Q3.inv, Q3.mk.injEq, Vec2.mk.injEq]; norm_num,
      List.chain'_cons.mpr ⟨by simp [Q3.div, Q3.mul, Q3.inv, Q3.mk.injEq, Vec2.mk.injEq]; norm_num,
        List.chain'_cons.mpr ⟨by simp [Q3.div, Q3.mul, Q3.inv, Q3.mk.injEq, Vec2.mk.injEq],
          List.chain'_singleton _⟩⟩⟩)

/-- No two adjacent points of the generated triangular-lattice k-path
coincide. -/
lemma kPathTriangular_chain' (n : ℕ) : List.Chain' Ne (kPathTriangular n) :=
  chain'_ne_interpolate n _
    (List.chain'_cons.mpr ⟨by simp [Q3.div, Q3.mul, Q3.inv, Q3.mk.injEq, Vec2.mk.injEq]; norm_num,
      List.chain'_cons.mpr ⟨by simp [Q3.div, Q3.mul, Q3.inv, Q3.mk.injEq, Vec2.mk.injEq]; norm_num,
        List.chain'_cons.mpr ⟨by simp [Q3.div, Q3.mul, Q3.inv, Q3.mk.injEq, Vec2.mk.injEq],
          List.chain'_singleton _⟩⟩⟩)


/-! ## The `/transmission` handler (`backend/fastapi_mpb.py`, lines 67-169) -/

/-- `class TxInput(BaseModel)` (lines 67-77). -/
structure TxInput where
  epsilon : ℚ
  r_over_a : ℚ
  a_mm : ℚ
  nx : ℕ
  ny : ℕ
  lattice : String
  resolution : ℕ
  fmin_GHz : ℚ
  fmax_GHz : ℚ
  nfreq : ℕ
deriving DecidableEq

/-- The speed of light `c0 = 299_792_458.0` (line 83). -/
def c0 : ℚ := 299792458

/-- `_a_from_mm` (lines 79-80): lattice constant in meters. -/
def a_from_mm (a_mm : ℚ) : ℚ := a_mm * (1 / 1000)

/-- `_GHz_to_meep_freq` (lines 82-85): `f_normalized = a_m · f_Hz / c0`. -/
def GHz_to_meep_freq (f_GHz : ℚ) (a_m : ℚ) : ℚ := a_m * (f_GHz * 1000000000) / c0

/-- Model of `np.linspace(a, b, n)`: `n` evenly spaced samples from `a` to
`b` inclusive (`[a]` for `n = 1`, `[]` for `n = 0`). -/
def linspace (a b : ℚ) (n : ℕ) : List ℚ :=
  if n = 1 then [a]
  else (List.range n).map (fun i : ℕ => a + (i : ℚ) * (b - a) / ((n : ℚ) - 1))

/-- `mp.GaussianSource` wrapped in `mp.Source` (lines 126-130). -/
structure GaussianSrc where
  frequency : ℚ
  fwidth : ℚ
  center : Vec2
  size : Vec2
deriving DecidableEq

/-- `mp.FluxRegion` (lines 133-136). -/
structure FluxRegion where
  center : Vec2
  size : Vec2
deriving DecidableEq

/-- One `mp.Simulation` together with the parameters of the `add_flux`
monitor whose spectrum the handler reads back with `mp.get_fluxes`
(lines 143-151 and 155-161).  `extraFlux` records the optional reflection
monitor of line 149, whose output the handler never reads. -/
structure SimSpec where
  cellX : ℚ
  cellY : Q3
  geometry : List Cylinder
  source : GaussianSrc
  resolution : ℕ
  fluxFcen : ℚ
  fluxFwidth : ℚ
  fluxNfreq : ℕ
  fluxRegion : FluxRegion
  extraFlux : List FluxRegion
deriving DecidableEq

/-- `np.clip(..., 1e-12, None)`'s and the guard denominator's constant
`1e-12` (lines 164-166). -/
def eps12 : ℚ := 1 / 10 ^ 12

/-- The frequency grid in meep units, `fc = np.linspace(fmin, fmax, nfreq)`
after GHz conversion (lines 89-94). -/
def txFc (inp : TxInput) : List ℚ :=
  linspace (GHz_to_meep_freq inp.fmin_GHz (a_from_mm inp.a_mm))
    (GHz_to_meep_freq inp.fmax_GHz (a_from_mm inp.a_mm)) inp.nfreq

/-- `0.5*(fc[0]+fc[-1])` — the source frequency and DFT center
(lines 126 and 139). -/
def txFcen (inp : TxInput) : ℚ := ((txFc inp).headD 0 + (txFc inp).getLastD 0) / 2

/-- `fc[-1]-fc[0]` — the source and DFT bandwidth (lines 127 and 140). -/
def txFwidth (inp : TxInput) : ℚ := (txFc inp).getLastD 0 - (txFc inp).headD 0

/-- Lattice footprint height (lines 97-102). -/
def txHeight (inp : TxInput) : Q3 :=
  if inp.lattice = "triangular" then Q3.qsmul (inp.ny : ℚ) (Q3.sqrt3 / 2)
  else Q3.ofRat (inp.ny : ℚ)

/-- Per-cell basis offsets (lines 99 and 102). -/
def txBasis (inp : TxInput) : List Vec2 :=
  if inp.lattice = "triangular" then [⟨0, 0⟩, ⟨1 / 2, Q3.sqrt3 / 2⟩] else [⟨0, 0⟩]

/-- The rod array (lines 105-116): radius `r_over_a * 0.5`, centers
`(ix + b.x, iy + b.y)` (y-offset only for the triangular lattice). -/
def txGeometry (inp : TxInput) : List Cylinder :=
  (List.range inp.nx).flatMap (fun ix : ℕ =>
    (List.range inp.ny).flatMap (fun iy : ℕ =>
      (txBasis inp).map (fun b =>
        ⟨inp.r_over_a * (1 / 2), inp.epsilon,
         ⟨Q3.ofRat (ix : ℚ) + b.x,
          if inp.lattice = "triangular" then Q3.ofRat (iy : ℚ) + b.y
          else Q3.ofRat (iy : ℚ)⟩⟩)))

/-- `dpml = 1.0` (line 119). -/
def dpml : ℚ := 1

/-- `sx = nx + 2*dpml + 2.0` (line 120). -/
def txSx (inp : TxInput) : ℚ := (inp.nx : ℚ) + 2 * dpml + 2

/-- `sy = height + 2*dpml` (line 121). -/
def txSy (inp : TxInput) : Q3 := txHeight inp + Q3.ofRat (2 * dpml)

/-- `src_x = -0.5*sx + dpml + 0.5` (line 125). -/
def txSrcX (inp : TxInput) : ℚ := -(1 / 2) * txSx inp + dpml + 1 / 2

/-- The broadband source (lines 126-130). -/
def txSource (inp : TxInput) : GaussianSrc :=
  ⟨txFcen inp, txFwidth inp, ⟨Q3.ofRat (txSrcX inp), 0⟩,
   ⟨0, txSy inp - Q3.ofRat (2 * dpml)⟩⟩

/-- Reflection flux plane `src_x + 0.4` (lines 133-134). -/
def txReflRegion (inp : TxInput) : FluxRegion :=
  ⟨⟨Q3.ofRat (txSrcX inp + 2 / 5), 0⟩, ⟨0, txSy inp - Q3.ofRat (2 * dpml)⟩⟩

/-- Transmission flux plane `0.5*sx - dpml - 0.5` (lines 135-136). -/
def txTranRegion (inp : TxInput) : FluxRegion :=
  ⟨⟨Q3.ofRat ((1 / 2) * txSx inp - dpml - 1 / 2), 0⟩, ⟨0, txSy inp - Q3.ofRat (2 * dpml)⟩⟩

/-- The simulation with the crystal (lines 143-150). -/
def txSimWith (inp : TxInput) : SimSpec :=
  ⟨txSx inp, txSy inp, txGeometry inp, txSource inp, inp.resolution,
   txFcen inp, txFwidth inp, inp.nfreq, txTranRegion inp, [txReflRegion inp]⟩

/-- The reference simulation without the crystal (lines 155-160). -/
def txSimEmpty (inp : TxInput) : SimSpec :=
  ⟨txSx inp, txSy inp, [], txSource inp, inp.resolution,
   txFcen inp, txFwidth inp, inp.nfreq, txTranRegion inp, []⟩

/-- `np.linspace(fmin_GHz, fmax_GHz, nfreq)` (line 165). -/
def txFreqGHz (inp : TxInput) : List ℚ :=
  linspace inp.fmin_GHz inp.fmax_GHz inp.nfreq

/-- The handler's JSON-like response (lines 168-169).  `transmission_dB` in
the source is `10*np.log10` mapped over the clipped ratio list; the
logarithm is not rational, so the response carries the exactly computed
clipped ratios `np.clip(tran/(tran0+1e-12), 1e-12, None)` and the theorems
state the decibel values as `10 * Real.logb 10` of these entries. -/
structure TxResponse where
  frequency_GHz : List ℚ
  transmission_ratio_clipped : List ℚ
deriving DecidableEq

/-- `transmission` (lines 87-169).  The external Meep engine (run +
`mp.get_fluxes` of the transmission monitor) is the parameter `engine`;
the handler runs it on the crystal simulation and on the empty reference,
then forms `T = tran/(tran0 + 1e-12)` and clips below at `1e-12`
(lines 163-166). -/
def transmission (engine : SimSpec → List ℚ) (inp : TxInput) : TxResponse :=
  let tran_spec := engine (txSimWith inp)
  let tran0_spec := engine (txSimEmpty inp)
  let T := List.zipWith (fun t t0 => t / (t0 + eps12)) tran_spec tran0_spec
  ⟨txFreqGHz inp, T.map (fun x => max x eps12)⟩

/-- Replace the `a_mm` field of a request, all else equal. -/
def setAmm (inp : TxInput) (v : ℚ) : TxInput :=
  ⟨inp.epsilon, inp.r_over_a, v, inp.nx, inp.ny, inp.lattice, inp.resolution,
   inp.fmin_GHz, inp.fmax_GHz, inp.nfreq⟩

/-! ## Helper lemmas about `linspace` -/

lemma linspace_length (a b : ℚ) (n : ℕ) : (linspace a b n).length = n := by
  unfold linspace
  split
  · simp [*]
  · simp

lemma linspace_getD (a b : ℚ) (n i : ℕ) (h2 : 2 ≤ n) (hi : i < n) :
    (linspace a b n).getD i 0 = a + (i : ℚ) * (b - a) / ((n : ℚ) - 1) := by
  unfold linspace
  rw [if_neg (by omega)]
  simp [List.getD_eq_getElem?_getD, List.getElem?_map, List.getElem?_range, hi]

lemma linspace_headD (a b : ℚ) (n : ℕ) (h1 : 1 ≤ n) :
    (linspace a b n).headD 0 = a := by
  unfold linspace
  split
  · rfl
  · obtain ⟨m, rfl⟩ : ∃ m, n = m + 1 := ⟨n - 1, by omega⟩
    rw [List.range_succ_eq_map]
    simp

lemma linspace_getLastD (a b : ℚ) (n : ℕ) (h2 : 2 ≤ n) :
    (linspace a b n).getLastD 0 = b := by
  unfold linspace
  rw [if_neg (by omega)]
  obtain ⟨m, rfl⟩ : ∃ m, n = m + 1 := ⟨n - 1, by omega⟩
  rw [List.range_succ, List.map_append]
  simp only [List.map_cons, List.map_nil, List.getLastD_concat]
  have hm : (m : ℚ) ≠ 0 := Nat.cast_ne_zero.mpr (by omega)
  push_cast
  field_simp


lemma txFcen_eq (inp : TxInput) (h2 : 2 ≤ inp.nfreq) :
    txFcen inp =
      GHz_to_meep_freq ((inp.fmin_GHz + inp.fmax_GHz) / 2) (a_from_mm inp.a_mm) := by
  unfold txFcen txFc
  rw [linspace_headD _ _ _ (by omega), linspace_getLastD _ _ _ h2]
  unfold GHz_to_meep_freq
  ring

lemma txFwidth_eq (inp : TxInput) (h2 : 2 ≤ inp.nfreq) :
    txFwidth inp =
      GHz_to_meep_freq (inp.fmax_GHz - inp.fmin_GHz) (a_from_mm inp.a_mm) := by
  unfold txFwidth txFc
  rw [linspace_headD _ _ _ (by omega), linspace_getLastD _ _ _ h2]
  unfold GHz_to_meep_freq
  ring

/-- A stand-in external engine used to instantiate the engine-shape
hypotheses: it honours the `add_flux`/`get_fluxes` contract of returning one
flux value per requested frequency. -/
def engineOnes : SimSpec → List ℚ := fun s => List.replicate s.fluxNfreq 1

/-- A concrete transmission request (the dashboard's defaults, with a small
frequency count). -/
def txSample : TxInput := ⟨35 / 10, 4 / 25, 7, 10, 8, "square", 24, 5, 35, 3⟩

/-- C5: for every transmission request, every physical GHz frequency is
converted to a normalized frequency by the exact rule
`f_normalized = a_meters · f_Hz / c0` (with `a_meters = a_mm · 10⁻³`) before
any value reaches the external engine: the meep-units frequency grid `fc` is
the pointwise conversion of the GHz grid, and the source/DFT center and
width handed to both simulations are conversions of the corresponding GHz
quantities. -/
theorem C5_theorem (inp : TxInput) (h2 : 2 ≤ inp.nfreq) :
    (∀ i < inp.nfreq,
      (txFc inp).getD i 0 =
        GHz_to_meep_freq ((txFreqGHz inp).getD i 0) (a_from_mm inp.a_mm)) ∧
    (txSimWith inp).source.frequency =
      GHz_to_meep_freq ((inp.fmin_GHz + inp.fmax_GHz) / 2) (a_from_mm inp.a_mm) ∧
    (txSimWith inp).source.fwidth =
      GHz_to_meep_freq (inp.fmax_GHz - inp.fmin_GHz) (a_from_mm inp.a_mm) ∧
    (txSimWith inp).fluxFcen =
      GHz_to_meep_freq ((inp.fmin_GHz + inp.fmax_GHz) / 2) (a_from_mm inp.a_mm) ∧
    (txSimWith inp).fluxFwidth =
      GHz_to_meep_freq (inp.fmax_GHz - inp.fmin_GHz) (a_from_mm inp.a_mm) ∧
    (txSimEmpty inp).source = (txSimWith inp).source ∧
    (txSimEmpty inp).fluxFcen = (txSimWith inp).fluxFcen ∧
    (txSimEmpty inp).fluxFwidth = (txSimWith inp).fluxFwidth := by
  refine ⟨?_, txFcen_eq inp h2, txFwidth_eq inp h2, txFcen_eq inp h2,
    txFwidth_eq inp h2, rfl, rfl, rfl⟩
  intro i hi
  unfold txFc txFreqGHz
  rw [linspace_getD _ _ _ _ h2 hi, linspace_getD _ _ _ _ h2 hi]
  unfold GHz_to_meep_freq a_from_mm
  ring

/-- Witness for C5 at the concrete request `txSample`. -/
theorem C5_witness :
    2 ≤ txSample.nfreq ∧
    ((∀ i < txSample.nfreq,
      (txFc txSample).getD i 0 =
        GHz_to_meep_freq ((txFreqGHz txSample).getD i 0) (a_from_mm txSample.a_mm)) ∧
    (txSimWith txSample).source.frequency =
      GHz_to_meep_freq ((txSample.fmin_GHz + txSample.fmax_GHz) / 2) (a_from_mm txSample.a_mm) ∧
    (txSimWith txSample).source.fwidth =
      GHz_to_meep_freq (txSample.fmax_GHz - txSample.fmin_GHz) (a_from_mm txSample.a_mm) ∧
    (txSimWith txSample).fluxFcen =
      GHz_to_meep_freq ((txSample.fmin_GHz + txSample.fmax_GHz) / 2) (a_from_mm txSample.a_mm) ∧
    (txSimWith txSample).fluxFwidth =
      GHz_to_meep_freq (txSample.fmax_GHz - txSample.fmin_GHz) (a_from_mm txSample.a_mm) ∧
    (txSimEmpty txSample).source = (txSimWith txSample).source ∧
    (txSimEmpty txSample).fluxFcen = (txSimWith txSample).fluxFcen ∧
    (txSimEmpty txSample).fluxFwidth = (txSimWith txSample).fluxFwidth) :=
  ⟨by decide, C5_theorem txSample (by decide)⟩

/-- C9: every decibel value the `/transmission` handler returns is at least
`10·log10(1e-12) = -120` (and in particular is a well-defined real number):
the ratio is clipped below at `1e-12` before the logarithm. -/
theorem C9_theorem (engine : SimSpec → List ℚ) (inp : TxInput) (x : ℚ)
    (hx : x ∈ (transmission engine inp).transmission_ratio_clipped) :
    (-120 : ℝ) ≤ 10 * Real.logb 10 (x : ℝ) := by
  have hge : eps12 ≤ x := by
    have hx' : x ∈ (List.zipWith (fun t t0 => t / (t0 + eps12))
        (engine (txSimWith inp)) (engine (txSimEmpty inp))).map
        (fun y => max y eps12) := hx
    obtain ⟨y, _, rfl⟩ := List.mem_map.mp hx'
    exact le_max_right _ _
  have hgeR : ((eps12 : ℚ) : ℝ) ≤ (x : ℝ) := by exact_mod_cast hge
  have heps : ((eps12 : ℚ) : ℝ) = ((10 : ℝ) ^ (12 : ℕ))⁻¹ := by
    norm_num [eps12]
  have hpos : (0 : ℝ) < ((eps12 : ℚ) : ℝ) := by rw [heps]; positivity
  have hlogb : Real.logb 10 ((eps12 : ℚ) : ℝ) = -12 := by
    rw [heps, Real.logb_inv, Real.logb_pow, Real.logb_self_eq_one (by norm_num)]
    norm_num
  have hmono := Real.logb_le_logb_of_le (by norm_num : (1 : ℝ) < 10) hpos hgeR
  rw [hlogb] at hmono
  linarith

/-- Witness for C9: a concrete clipped ratio produced by the handler with a
concrete engine and request. -/
theorem C9_witness :
    max (1 / (1 + eps12)) eps12 ∈
      (transmission engineOnes txSample).transmission_ratio_clipped ∧
    (-120 : ℝ) ≤ 10 * Real.logb 10 ((max (1 / (1 + eps12)) eps12 : ℚ) : ℝ) := by
  have hmem : max (1 / (1 + eps12)) eps12 ∈
      (transmission engineOnes txSample).transmission_ratio_clipped := by
    have hlist : (transmission engineOnes txSample).transmission_ratio_clipped =
        [max (1 / (1 + eps12)) eps12, max (1 / (1 + eps12)) eps12,
         max (1 / (1 + eps12)) eps12] := by
      show ((List.zipWith (fun t t0 => t / (t0 + eps12))
          (engineOnes (txSimWith txSample)) (engineOnes (txSimEmpty txSample))).map
          (fun x => max x eps12)) = _
      simp [engineOnes, txSimWith, txSimEmpty, txSample, List.replicate]
    rw [hlist]
    exact List.mem_cons_self _ _
  exact ⟨hmem, C9_theorem engineOnes txSample _ hmem⟩

/-- C10: the response of the `/transmission` handler has `frequency_GHz` and
`transmission_dB` both of length exactly `nfreq` (given the engine's
one-flux-per-frequency contract); `frequency_GHz` is the evenly spaced grid
from `fmin_GHz` to `fmax_GHz` inclusive and does not depend on the lattice
constant `a_mm`. -/
theorem C10_theorem (engine : SimSpec → List ℚ) (inp : TxInput)
    (heng : ∀ s : SimSpec, (engine s).length = s.fluxNfreq) (h2 : 2 ≤ inp.nfreq) :
    (transmission engine inp).frequency_GHz.length = inp.nfreq ∧
    ((transmission engine inp).transmission_ratio_clipped.map
      (fun q : ℚ => (10 : ℝ) * Real.logb 10 (q : ℝ))).length = inp.nfreq ∧
    (transmission engine inp).frequency_GHz.headD 0 = inp.fmin_GHz ∧
    (transmission engine inp).frequency_GHz.getLastD 0 = inp.fmax_GHz ∧
    (∀ i, i + 1 < inp.nfreq →
      (transmission engine inp).frequency_GHz.getD (i + 1) 0 -
        (transmission engine inp).frequency_GHz.getD i 0 =
        (inp.fmax_GHz - inp.fmin_GHz) / ((inp.nfreq : ℚ) - 1)) ∧
    ∀ v : ℚ, (transmission engine (setAmm inp v)).frequency_GHz =
      (transmission engine inp).frequency_GHz := by
  have hfreq : (transmission engine inp).frequency_GHz = txFreqGHz inp := rfl
  refine ⟨?_, ?_, ?_, ?_, ?_, ?_⟩
  · rw [hfreq]; unfold txFreqGHz; exact linspace_length _ _ _
  · rw [List.length_map]
    show ((List.zipWith (fun t t0 => t / (t0 + eps12))
        (engine (txSimWith inp)) (engine (txSimEmpty inp))).map
        (fun x => max x eps12)).length = inp.nfreq
    rw [List.length_map, List.length_zipWith, heng, heng]
    simp [txSimWith, txSimEmpty]
  · rw [hfreq]; unfold txFreqGHz; exact linspace_headD _ _ _ (by omega)
  · rw [hfreq]; unfold txFreqGHz; exact linspace_getLastD _ _ _ h2
  · intro i hi
    rw [hfreq]; unfold txFreqGHz
    rw [linspace_getD _ _ _ _ h2 (by omega), linspace_getD _ _ _ _ h2 (by omega)]
    push_cast
    ring
  · intro v; rfl

/-- Witness for C10 at the concrete engine `engineOnes` and request
`txSample`. -/
theorem C10_witness :
    (∀ s : SimSpec, (engineOnes s).length = s.fluxNfreq) ∧ 2 ≤ txSample.nfreq ∧
    ((transmission engineOnes txSample).frequency_GHz.length = txSample.nfreq ∧
    ((transmission engineOnes txSample).transmission_ratio_clipped.map
      (fun q : ℚ => (10 : ℝ) * Real.logb 10 (q : ℝ))).length = txSample.nfreq ∧
    (transmission engineOnes txSample).frequency_GHz.headD 0 = txSample.fmin_GHz ∧
    (transmission engineOnes txSample).frequency_GHz.getLastD 0 = txSample.fmax_GHz ∧
    (∀ i, i + 1 < txSample.nfreq →
      (transmission engineOnes txSample).frequency_GHz.getD (i + 1) 0 -
        (transmission engineOnes txSample).frequency_GHz.getD i 0 =
        (txSample.fmax_GHz - txSample.fmin_GHz) / ((txSample.nfreq : ℚ) - 1)) ∧
    ∀ v : ℚ, (transmission engineOnes (setAmm txSample v)).frequency_GHz =
      (transmission engineOnes txSample).frequency_GHz) :=
  ⟨fun s => by simp [engineOnes], by decide,
    C10_theorem engineOnes txSample (fun s => by simp [engineOnes]) (by decide)⟩

/-! ## Claim theorems about the `/bands` handler -/

/-- The `ModeSolver` record built for a square-lattice request. -/
def squareSolverSpec (inp : BandInput) : ModeSolverSpec :=
  ⟨inp.num_bands, kPathSquare inp.k_points_per_segment, squareLattice,
   [⟨inp.r_over_a * (1 / 2), inp.epsilon, ⟨0, 0⟩⟩], inp.resolution, 1⟩

/-- The `ModeSolver` record built for a triangular-lattice request. -/
def triangularSolverSpec (inp : BandInput) : ModeSolverSpec :=
  ⟨inp.num_bands, kPathTriangular inp.k_points_per_segment, triangularLattice,
   [⟨inp.r_over_a * (1 / 2), inp.epsilon, ⟨0, 0⟩⟩], inp.resolution, 1⟩

lemma bandsSolverSpec_square (inp : BandInput) (h : inp.lattice = "square") :
    bandsSolverSpec inp = some (squareSolverSpec inp, ["Γ", "X", "M", "Γ"]) := by
  simp [bandsSolverSpec, bandsLatticeAndPath, h, squareSolverSpec]

lemma bandsSolverSpec_triangular (inp : BandInput) (h : inp.lattice = "triangular") :
    bandsSolverSpec inp = some (triangularSolverSpec inp, ["Γ", "M", "K", "Γ"]) := by
  simp [bandsSolverSpec, bandsLatticeAndPath, h, triangularSolverSpec]

lemma bandsSolverSpec_none (inp : BandInput) (h1 : inp.lattice ≠ "square")
    (h2 : inp.lattice ≠ "triangular") : bandsSolverSpec inp = none := by
  simp [bandsSolverSpec, bandsLatticeAndPath, h1, h2]

/-- An external mode solver returning no bands at all. -/
def solverA : ModeSolverSpec → List (List ℚ) := fun _ => []

/-- An external mode solver returning a single zero frequency. -/
def solverB : ModeSolverSpec → List (List ℚ) := fun _ => [[0]]

/-- An external mode solver honouring MPB's documented `all_freqs` shape
`(num_k, num_bands)` (source comment, line 60). -/
def solverShape : ModeSolverSpec → List (List ℚ) :=
  fun s => List.replicate s.k_points.length (List.replicate s.num_bands 0)

lemma solverShape_shape (s : ModeSolverSpec) :
    (solverShape s).length = s.k_points.length ∧
    ∀ row ∈ solverShape s, row.length = s.num_bands := by
  constructor
  · simp [solverShape]
  · intro row hrow
    simp only [solverShape] at hrow
    rw [List.eq_of_mem_replicate hrow]
    simp

/-- A well-formed band request (`ε = 8.9`, `r/a = 0.2`, square lattice). -/
def bandSample : BandInput := ⟨89 / 10, 1 / 5, 8, 32, 16, "square"⟩

/-- A band request violating every domain constraint of the claim:
`epsilon = 0.5 < 1`, `r_over_a = 0.7 ∉ (0, 0.5)`. -/
def badBandInput : BandInput := ⟨1 / 2, 7 / 10, 100, 32, 16, "square"⟩

/-- A square-lattice request with 20 samples per segment. -/
def kppsSample : BandInput := ⟨89 / 10, 1 / 5, 4, 32, 20, "square"⟩

/-- A band request with an unrecognized lattice keyword. -/
def hexInput : BandInput := ⟨35 / 10, 1 / 5, 8, 32, 16, "hexagonal"⟩

/-- C1 counterexample: the band computation is NOT self-contained — the
frequencies returned by `compute_bands` change when the external mode solver
is changed, all inputs equal, so the handler calls an external simulation
engine rather than computing bands itself. -/
theorem C1_counterexample :
    compute_bands solverA bandSample ≠ compute_bands solverB bandSample := by
  simp [compute_bands, bandsSolverSpec_square bandSample rfl, solverA, solverB]

/-- C1 (amended): for every recognized band request the handler delegates to
the external MPB mode solver: the response is the engine's frequency table
returned verbatim for the constructed `ModeSolver` problem, and there exist
engines for which the results differ — the repository contains no
self-contained plane-wave-expansion algorithm. -/
theorem C1_theorem (inp : BandInput)
    (hlat : inp.lattice = "square" ∨ inp.lattice = "triangular") :
    (∀ run_tm : ModeSolverSpec → List (List ℚ), ∃ p,
      bandsSolverSpec inp = some p ∧
      compute_bands run_tm inp = BandsResponse.ok p.2 (run_tm p.1)) ∧
    (∃ s1 s2 : ModeSolverSpec → List (List ℚ),
      compute_bands s1 inp ≠ compute_bands s2 inp) := by
  have key : ∃ spec labels, bandsSolverSpec inp = some (spec, labels) := by
    rcases hlat with h | h
    · exact ⟨_, _, bandsSolverSpec_square inp h⟩
    · exact ⟨_, _, bandsSolverSpec_triangular inp h⟩
  obtain ⟨spec, labels, hp⟩ := key
  constructor
  · intro run_tm
    exact ⟨(spec, labels), hp, by simp [compute_bands, hp]⟩
  · refine ⟨fun _ => [], fun _ => [[0]], ?_⟩
    simp [compute_bands, hp]

/-- Witness for C1 at the concrete request `bandSample`. -/
theorem C1_witness :
    (bandSample.lattice = "square" ∨ bandSample.lattice = "triangular") ∧
    ((∀ run_tm : ModeSolverSpec → List (List ℚ), ∃ p,
      bandsSolverSpec bandSample = some p ∧
      compute_bands run_tm bandSample = BandsResponse.ok p.2 (run_tm p.1)) ∧
    (∃ s1 s2 : ModeSolverSpec → List (List ℚ),
      compute_bands s1 bandSample ≠ compute_bands s2 bandSample)) :=
  ⟨Or.inl rfl, C1_theorem bandSample (Or.inl rfl)⟩

/-- C2 counterexample: a request with `epsilon = 0.5 < 1` and
`r_over_a = 0.7 ∉ (0, 0.5)` is NOT rejected: `compute_bands` returns an
ordinary band result (the engine's table), not an `InvalidParameter`
error. -/
theorem C2_counterexample :
    badBandInput.epsilon < 1 ∧
    ¬(0 < badBandInput.r_over_a ∧ badBandInput.r_over_a < 1 / 2) ∧
    compute_bands solverA badBandInput =
      BandsResponse.ok ["Γ", "X", "M", "Γ"] [] := by
  refine ⟨by norm_num [badBandInput], by norm_num [badBandInput], ?_⟩
  simp [compute_bands, bandsSolverSpec_square badBandInput rfl, solverA]

/-- C2 (amended): the handler performs no domain validation at all — for
every request (any epsilon, radius ratio, band count or sample count) it
returns an error exactly when the lattice keyword is unrecognized, and
otherwise always produces a band result. -/
theorem C2_theorem (run_tm : ModeSolverSpec → List (List ℚ)) (inp : BandInput) :
    (∃ msg, compute_bands run_tm inp = BandsResponse.error msg) ↔
      (inp.lattice ≠ "square" ∧ inp.lattice ≠ "triangular") := by
  by_cases h1 : inp.lattice = "square"
  · simp [compute_bands, bandsSolverSpec_square inp h1, h1]
  · by_cases h2 : inp.lattice = "triangular"
    · simp [compute_bands, bandsSolverSpec_triangular inp h2, h2]
    · simp [compute_bands, bandsSolverSpec_none inp h1 h2, h1, h2]

/-- C3 (code bug): for the request with `r_over_a = 0.2`, the cylinder
radius handed to the solver is `0.1 = r_over_a * 0.5`, not the input value
`0.2` — the code divides the documented radius ratio by two. -/
theorem C3_theorem :
    (bandsSolverSpec bandSample).map (fun p => p.1.geometry.map Cylinder.radius) =
      some [1 / 10] ∧
    bandSample.r_over_a = 1 / 5 ∧ (1 / 10 : ℚ) ≠ 1 / 5 := by
  refine ⟨?_, rfl, by norm_num⟩
  rw [bandsSolverSpec_square bandSample rfl]
  simp [squareSolverSpec, bandSample]
  norm_num

/-- C4 counterexample: the square-lattice 3-segment path with 20 samples per
segment contains 64 k-points, not 60 and not 61. -/
theorem C4_counterexample :
    (bandsSolverSpec kppsSample).map (fun p => p.1.k_points.length) = some 64 ∧
    (64 : ℕ) ≠ 60 ∧ (64 : ℕ) ≠ 61 := by
  refine ⟨?_, by decide, by decide⟩
  rw [bandsSolverSpec_square kppsSample rfl]
  simp [squareSolverSpec, kppsSample, kPathSquare_length]

/-- C4 (amended): the k-path is produced by linear interpolation keeping
every high-symmetry point and inserting `n` samples strictly between each
consecutive pair, so a 3-segment path yields `3n + 4` k-points (64 for
`n = 20`), and no two adjacent points are equal. -/
theorem C4_theorem (inp : BandInput)
    (hlat : inp.lattice = "square" ∨ inp.lattice = "triangular") :
    ∃ p, bandsSolverSpec inp = some p ∧
      p.1.k_points.length = 3 * inp.k_points_per_segment + 4 ∧
      List.Chain' Ne p.1.k_points := by
  rcases hlat with h | h
  · exact ⟨_, bandsSolverSpec_square inp h, kPathSquare_length _, kPathSquare_chain' _⟩
  · exact ⟨_, bandsSolverSpec_triangular inp h, kPathTriangular_length _,
      kPathTriangular_chain' _⟩

/-- Witness for C4 at the concrete request `kppsSample` (20 samples per
segment). -/
theorem C4_witness :
    (kppsSample.lattice = "square" ∨ kppsSample.lattice = "triangular") ∧
    ∃ p, bandsSolverSpec kppsSample = some p ∧
      p.1.k_points.length = 3 * kppsSample.k_points_per_segment + 4 ∧
      List.Chain' Ne p.1.k_points :=
  ⟨Or.inl rfl, C4_theorem kppsSample (Or.inl rfl)⟩

/-- C6: for every recognized request and every engine honouring MPB's
`all_freqs` shape, the response carries a list of string labels and a
frequency table whose outer index ranges over the k-points and whose inner
lists all have length `num_bands`. -/
theorem C6_theorem (run_tm : ModeSolverSpec → List (List ℚ)) (inp : BandInput)
    (hshape : ∀ s : ModeSolverSpec, (run_tm s).length = s.k_points.length ∧
      ∀ row ∈ run_tm s, row.length = s.num_bands)
    (hlat : inp.lattice = "square" ∨ inp.lattice = "triangular") :
    ∃ labels freqs, compute_bands run_tm inp = BandsResponse.ok labels freqs ∧
      labels.length = 4 ∧
      freqs.length = 3 * inp.k_points_per_segment + 4 ∧
      ∀ row ∈ freqs, row.length = inp.num_bands := by
  rcases hlat with h | h
  · refine ⟨["Γ", "X", "M", "Γ"], run_tm (squareSolverSpec inp),
      by simp [compute_bands, bandsSolverSpec_square inp h], rfl, ?_, ?_⟩
    · rw [(hshape (squareSolverSpec inp)).1]
      exact kPathSquare_length _
    · exact (hshape (squareSolverSpec inp)).2
  · refine ⟨["Γ", "M", "K", "Γ"], run_tm (triangularSolverSpec inp),
      by simp [compute_bands, bandsSolverSpec_triangular inp h], rfl, ?_, ?_⟩
    · rw [(hshape (triangularSolverSpec inp)).1]
      exact kPathTriangular_length _
    · exact (hshape (triangularSolverSpec inp)).2

/-- Witness for C6 at the shape-honouring engine `solverShape` and the
concrete request `bandSample`. -/
theorem C6_witness :
    (∀ s : ModeSolverSpec, (solverShape s).length = s.k_points.length ∧
      ∀ row ∈ solverShape s, row.length = s.num_bands) ∧
    (bandSample.lattice = "square" ∨ bandSample.lattice = "triangular") ∧
    ∃ labels freqs, compute_bands solverShape bandSample = BandsResponse.ok labels freqs ∧
      labels.length = 4 ∧
      freqs.length = 3 * bandSample.k_points_per_segment + 4 ∧
      ∀ row ∈ freqs, row.length = bandSample.num_bands :=
  ⟨solverShape_shape, Or.inl rfl,
    C6_theorem solverShape bandSample solverShape_shape (Or.inl rfl)⟩

/-- C7: an unrecognized lattice keyword makes `compute_bands` return the
user-visible `unknown lattice` error, and the result does not depend on the
engine at all (no band computation is performed, no silent default). -/
theorem C7_theorem (run_tm run_tm2 : ModeSolverSpec → List (List ℚ))
    (inp : BandInput) (h1 : inp.lattice ≠ "square")
    (h2 : inp.lattice ≠ "triangular") :
    compute_bands run_tm inp = BandsResponse.error "unknown lattice" ∧
    compute_bands run_tm inp = compute_bands run_tm2 inp := by
  have hp := bandsSolverSpec_none inp h1 h2
  constructor <;> simp [compute_bands, hp]

/-- Witness for C7 at the keyword `"hexagonal"` and two distinct engines. -/
theorem C7_witness :
    hexInput.lattice ≠ "square" ∧ hexInput.lattice ≠ "triangular" ∧
    (compute_bands solverA hexInput = BandsResponse.error "unknown lattice" ∧
      compute_bands solverA hexInput = compute_bands solverB hexInput) :=
  ⟨by decide, by decide, C7_theorem solverA solverB hexInput (by decide) (by decide)⟩

/-- C8: the `/bands` handler is stateless — one invocation returns the
module state unchanged, the response is independent of the incoming state,
and running another request first does not change the response of a later
one. -/
theorem C8_theorem (σ σ2 : AppState) (run_tm : ModeSolverSpec → List (List ℚ))
    (inp inp2 : BandInput) :
    (handleBands σ run_tm inp).2 = σ ∧
    (handleBands σ run_tm inp).1 = (handleBands σ2 run_tm inp).1 ∧
    (handleBands (handleBands σ run_tm inp2).2 run_tm inp).1 =
      (handleBands σ run_tm inp).1 :=
  ⟨rfl, rfl, rfl⟩
